import Mathlib

/-!
A verification development for the packet-relay execution engine of the
`hermes` IBC relayer.  The definitions below are a shallow embedding of the
Rust sources: pure data is translated to Lean structures, fallible
operations return `Except`, and the asynchronous effects are made explicit
as function arguments (queries, senders) so that the control flow of each
source function is preserved literally.
-/

/-- IBC revision-qualified height (`ibc_relayer_types::Height`), a pair of a
revision number and a revision height, ordered lexicographically. -/
structure ICSHeight where
  revision : Nat
  height : Nat
deriving DecidableEq, Repr

/-- Strict lexicographic order on heights, matching the `Ord` derivation on
the Rust `Height` type (revision number first, then revision height). -/
def ICSHeight.ltb (a b : ICSHeight) : Bool :=
  a.revision < b.revision || (a.revision == b.revision && a.height < b.height)

/-- Non-strict lexicographic order on heights. -/
def ICSHeight.leb (a b : ICSHeight) : Bool :=
  a.revision < b.revision || (a.revision == b.revision && a.height ≤ b.height)

/-- A chain identifier: the chain name together with its revision
(`ChainId::version`). -/
structure ChainId where
  name : String
  version : Nat
deriving DecidableEq, Repr

/-- An IBC packet (`ibc_relayer_types::core::ics04_channel::packet::Packet`):
logical identity is (source port, source channel, destination port,
destination channel, sequence); payload and timeouts are carried along. -/
structure Packet where
  sequence : Nat
  source_port : String
  source_channel : String
  destination_port : String
  destination_channel : String
  data : String
  timeout_height : ICSHeight
  timeout_timestamp : Nat
deriving DecidableEq, Repr

/-- The parsed IBC events the analysed queries produce
(`ibc_relayer_types::events::IbcEvent`, restricted to the variants used by
the psql query path). -/
inductive IbcEvent where
  | sendPacket (packet : Packet)
  | writeAcknowledgement (packet : Packet) (ack : String)
  | updateClient (client_id : String) (consensus_height : ICSHeight)
  | chainError (msg : String)
deriving DecidableEq, Repr

/-- `IbcEvent::packet()`: the packet carried by a packet event, if any. -/
def IbcEvent.packet : IbcEvent → Option Packet
  | .sendPacket p => some p
  | .writeAcknowledgement p _ => some p
  | _ => none

/-- An IBC event paired with the height it was committed at
(`crate::event::IbcEventWithHeight`). -/
structure IbcEventWithHeight where
  event : IbcEvent
  height : ICSHeight
deriving DecidableEq, Repr

/-- Event type string for send-packet events (`events::SEND_PACKET_EVENT`). -/
def SEND_PACKET_EVENT : String := "send_packet"

/-- Event type string for write-acknowledgement events
(`events::WRITE_ACK_EVENT`). -/
def WRITE_ACK_EVENT : String := "write_acknowledgement"

/-- Event type string for update-client events. -/
def UPDATE_CLIENT_EVENT : String := "update_client"

/-- A raw ABCI event (`tendermint::abci::Event`): a type string together
with the attribute fields the parsers of this code base read from it.  A
missing attribute is `none`, so that attribute extraction can fail exactly
as it does on raw key/value attribute lists. -/
structure AbciEvent where
  type_str : String
  packet : Option Packet
  ack : Option String
  client_id : Option String
  consensus_height : Option ICSHeight
deriving DecidableEq, Repr

/-- `WithBlockDataType`: which event kind a query asks for. -/
inductive WithBlockDataType where
  | createClient
  | updateClient
  | sendPacket
  | writeAck
deriving DecidableEq, Repr

/-- `WithBlockDataType::as_str`. -/
def WithBlockDataType.asStr : WithBlockDataType → String
  | .createClient => "create_client"
  | .updateClient => UPDATE_CLIENT_EVENT
  | .sendPacket => SEND_PACKET_EVENT
  | .writeAck => WRITE_ACK_EVENT

/-- `QueryHeight`: query at the latest committed state or at a specific
height. -/
inductive QueryHeight where
  | latest
  | specific (h : ICSHeight)
deriving DecidableEq, Repr

/-- `QueryPacketEventDataRequest`: the packet-event filter (event kind,
the four channel-end identifiers, the requested sequence set, and the query
height). -/
structure QueryPacketEventDataRequest where
  event_id : WithBlockDataType
  source_channel_id : String
  source_port_id : String
  destination_channel_id : String
  destination_port_id : String
  sequences : List Nat
  height : QueryHeight
deriving DecidableEq, Repr

/-- `QueryClientEventRequest`: the client-update event filter. -/
structure QueryClientEventRequest where
  query_height : QueryHeight
  event_id : WithBlockDataType
  client_id : String
  consensus_height : ICSHeight
deriving DecidableEq, Repr

/-- Modelled from the spec: the event parser `from_tx_response_event`
(`crates/relayer/src/chain/cosmos/types/events`, not among the provided
sources).  Per the spec's event-correlation section it dispatches on the
event type string and reads the attribute fields of that event kind,
failing when a required attribute is absent. -/
def from_tx_response_event (height : ICSHeight) (event : AbciEvent) :
    Option IbcEventWithHeight :=
  if event.type_str == SEND_PACKET_EVENT then
    event.packet.map (fun p => ⟨.sendPacket p, height⟩)
  else if event.type_str == WRITE_ACK_EVENT then
    match event.packet, event.ack with
    | some p, some a => some ⟨.writeAcknowledgement p a, height⟩
    | _, _ => none
  else if event.type_str == UPDATE_CLIENT_EVENT then
    match event.client_id, event.consensus_height with
    | some c, some h => some ⟨.updateClient c h, height⟩
    | _, _ => none
  else none

/-- `matches_packet` (inner helper of `filter_matching_event`,
`psql_cosmos/query.rs`): the packet's four channel-end identifiers equal
the request's and its sequence is a member of the requested sequence set. -/
def matches_packet (request : QueryPacketEventDataRequest) (packet : Packet) :
    Bool :=
  packet.source_port == request.source_port_id
    && packet.source_channel == request.source_channel_id
    && packet.destination_port == request.destination_port_id
    && packet.destination_channel == request.destination_channel_id
    && request.sequences.contains packet.sequence

/-- `filter_matching_event` (`psql_cosmos/query.rs`): keep a transaction
event only if its type string equals the requested event id and it parses
to a send-packet or write-acknowledgement event whose packet matches the
request. -/
def filter_matching_event (event : AbciEvent) (height : ICSHeight)
    (request : QueryPacketEventDataRequest) : Option IbcEventWithHeight :=
  if event.type_str != request.event_id.asStr then none
  else
    match from_tx_response_event height event with
    | none => none
    | some ibc_event =>
      match ibc_event.event with
      | .sendPacket send_ev =>
        if matches_packet request send_ev then some ibc_event else none
      | .writeAcknowledgement ack_ev _ =>
        if matches_packet request ack_ev then some ibc_event else none
      | _ => none

/-- `abci::DeliverTx`, restricted to the fields the analysed code reads:
result code, log, and the emitted events. -/
structure DeliverTx where
  code : Nat
  log : String
  events : List AbciEvent
deriving DecidableEq, Repr

/-- `tendermint_rpc::endpoint::tx::Response` (`ResultTx`): one committed
transaction with its hash, height and deliver-tx result. -/
structure ResultTx where
  hash : String
  height : Nat
  tx_result : DeliverTx
deriving DecidableEq, Repr

/-- `update_client_events_from_tx_search_response` (`psql_cosmos/query.rs`):
extract from one transaction the update-client event for the requested
client and consensus height, dropping the transaction entirely when its
height exceeds a specific query height. -/
def update_client_events_from_tx_search_response (chain_id : ChainId)
    (request : QueryClientEventRequest) (response : ResultTx) :
    Option IbcEventWithHeight :=
  let height : ICSHeight := ⟨chain_id.version, response.height⟩
  if (match request.query_height with
      | .specific query_height => ICSHeight.ltb query_height height
      | .latest => false) then
    none
  else
    ((response.tx_result.events.filter
        (fun event => event.type_str == request.event_id.asStr)).filterMap
      (fun event => from_tx_response_event height event)).filterMap
      (fun event =>
        match event.event with
        | .updateClient c h => some (c, h)
        | _ => none)
    |>.find? (fun update =>
        update.1 == request.client_id && update.2 == request.consensus_height)
    |>.map (fun update => ⟨.updateClient update.1 update.2, height⟩)

/-- `packet_events_from_tx_search_response` (`psql_cosmos/query.rs`):
extract the matching packet events from a list of transaction results,
skipping any transaction whose height exceeds a specific query height. -/
def packet_events_from_tx_search_response (chain_id : ChainId)
    (request : QueryPacketEventDataRequest) :
    List ResultTx → List IbcEventWithHeight
  | [] => []
  | response :: rest =>
    let height : ICSHeight := ⟨chain_id.version, response.height⟩
    if (match request.height with
        | .specific specific_query_height =>
          ICSHeight.ltb specific_query_height height
        | .latest => false) then
      packet_events_from_tx_search_response chain_id request rest
    else
      (response.tx_result.events.filterMap
          (fun ev => filter_matching_event ev height request))
        ++ packet_events_from_tx_search_response chain_id request rest

/-- A row of the `ibc_block_events` table (`SqlPacketBlockEvents`), with the
packet columns already parsed into a `Packet`. -/
structure SqlPacketBlockEvents where
  block_id : Nat
  type_str : String
  packet : Packet
  packet_ack : String
deriving DecidableEq, Repr

/-- `ibc_packet_event_from_sql_block_query` (`psql_cosmos/query.rs`): turn a
block-event row into a send-packet or write-acknowledgement event at the
row's block height. -/
def ibc_packet_event_from_sql_block_query (chain_id : ChainId)
    (event : SqlPacketBlockEvents) : Option IbcEventWithHeight :=
  let height : ICSHeight := ⟨chain_id.version, event.block_id⟩
  let ibc_event : Option IbcEvent :=
    if event.type_str == SEND_PACKET_EVENT then
      some (.sendPacket event.packet)
    else if event.type_str == WRITE_ACK_EVENT then
      some (.writeAcknowledgement event.packet event.packet_ack)
    else none
  ibc_event.map (fun e => ⟨e, height⟩)

/-- `block_results_by_packet_fields` (`psql_cosmos/query.rs`): the SQL
query over `ibc_block_events` — rows whose sequence is in the requested
set and whose type, source channel and source port equal the request's.
The database is modelled as the list of its rows. -/
def block_results_by_packet_fields (db : List SqlPacketBlockEvents)
    (search : QueryPacketEventDataRequest) : List SqlPacketBlockEvents :=
  db.filter (fun row =>
    search.sequences.contains row.packet.sequence
      && row.type_str == search.event_id.asStr
      && row.packet.source_channel == search.source_channel_id
      && row.packet.source_port == search.source_port_id)

/-- `block_search_response_from_packet_query` (`psql_cosmos/query.rs`):
query the block-event rows matching the packet filter, parse them, and
keep only events at or below a specific query height (no height filter
under `Latest`). -/
def block_search_response_from_packet_query (db : List SqlPacketBlockEvents)
    (chain_id : ChainId) (request : QueryPacketEventDataRequest) :
    List IbcEventWithHeight :=
  ((block_results_by_packet_fields db request).filterMap
      (fun result => ibc_packet_event_from_sql_block_query chain_id result))
    |>.filterMap (fun event =>
      match request.height with
      | .latest => some event
      | .specific height =>
        if ICSHeight.leb event.height height then some event else none)

/-- `query_packets_from_ibc_snapshots` (`psql_cosmos/query.rs`), the
`SendPacket` branch: the snapshot store returns a height and all sent
packets; keep those whose source port, source channel and sequence match
the request, stamping every kept event with the snapshot height. -/
def query_packets_from_ibc_snapshots_send (snapshot_height : ICSHeight)
    (all_packets : List Packet) (request : QueryPacketEventDataRequest) :
    List IbcEventWithHeight :=
  all_packets.filterMap (fun packet =>
    if packet.source_port == request.source_port_id
        && packet.source_channel == request.source_channel_id
        && request.sequences.contains packet.sequence then
      some ⟨.sendPacket packet, snapshot_height⟩
    else none)

/-- `TxStatus` (`chain/cosmos/types/tx.rs`): lifecycle status of a
submitted transaction awaiting its events. -/
inductive TxStatus where
  | pending
  | receivedResponse
  | timedOut
deriving DecidableEq, Repr

/-- The response recorded for a synchronously broadcast transaction
(the fields of `Response` that `TxSyncResult` reads: hash, code, log). -/
structure TxSyncResponse where
  hash : String
  code : Nat
  log : String
deriving DecidableEq, Repr

/-- `TxSyncResult` (`chain/cosmos/types/tx.rs`): a broadcast transaction,
the events slot reserved for it (one slot per message), and its status. -/
structure TxSyncResult where
  response : TxSyncResponse
  events : List IbcEventWithHeight
  status : TxStatus
deriving DecidableEq, Repr

/-- The synthetic chain-error event text built by
`all_ibc_events_from_tx_result_batch` for a transaction whose deliver-tx
code is non-zero. -/
def deliver_tx_error_msg (chain_id : ChainId) (response : ResultTx) : String :=
  "deliver_tx on chain " ++ chain_id.name ++ " for Tx hash " ++ response.hash
    ++ " reports error: code=" ++ toString response.tx_result.code
    ++ ", log=" ++ response.tx_result.log

/-- `all_ibc_events_from_tx_result_batch` (`psql_cosmos/query.rs`): one
event group per transaction result; a non-zero result code yields a single
synthetic chain-error event carrying the on-chain log, a zero code yields
the parsed IBC events of the transaction. -/
def all_ibc_events_from_tx_result_batch (chain_id : ChainId) :
    List ResultTx → List (List IbcEventWithHeight)
  | [] => []
  | response :: rest =>
    let height : ICSHeight := ⟨chain_id.version, response.height⟩
    let new_events :=
      if response.tx_result.code ≠ 0 then
        [⟨.chainError (deliver_tx_error_msg chain_id response), height⟩]
      else
        response.tx_result.events.filterMap
          (fun ev => from_tx_response_event height ev)
    new_events :: all_ibc_events_from_tx_result_batch chain_id rest

/-- The body of the update loop of `query_hashes_and_update_tx_sync_events`
for one solved transaction: if the extracted events contain a chain-error
event, replicate that error into every message slot of the transaction,
otherwise store the events; either way the transaction becomes
`ReceivedResponse`. -/
def update_solved_tx_sync_result (result : TxSyncResult)
    (events : List IbcEventWithHeight) : TxSyncResult :=
  let tx_chain_error :=
    events.find? (fun event =>
      match event.event with
      | .chainError _ => true
      | _ => false)
  match tx_chain_error with
  | some err =>
    { result with
        events := List.replicate result.events.length err
        status := .receivedResponse }
  | none => { result with events := events, status := .receivedResponse }

/-- The in-place update of `query_hashes_and_update_tx_sync_events`:
walk the sync results; each one whose hash is among the solved hashes is
paired with the next extracted event group (the zip stops when the groups
run out); the others are left untouched. -/
def update_tx_sync_results_with_events (solved_hashes : List String) :
    List TxSyncResult → List (List IbcEventWithHeight) → List TxSyncResult
  | [], _ => []
  | result :: rest, events_groups =>
    if solved_hashes.contains result.response.hash then
      match events_groups with
      | [] => result :: rest
      | events :: rest_groups =>
        update_solved_tx_sync_result result events
          :: update_tx_sync_results_with_events solved_hashes rest rest_groups
    else
      result :: update_tx_sync_results_with_events solved_hashes rest
          events_groups

/-- `query_hashes_and_update_tx_sync_events` (`psql_cosmos/query.rs`):
collect the hashes of the still-pending results, fetch the matching
transaction results from the database (modelled as the list of stored
`ResultTx` rows), extract one event group per found transaction, and write
each group into the sync result with that hash. -/
def query_hashes_and_update_tx_sync_events (db : List ResultTx)
    (chain_id : ChainId) (tx_sync_results : List TxSyncResult) :
    List TxSyncResult :=
  let unsolved_hashes :=
    (tx_sync_results.filter (fun result => result.status == .pending)).map
      (fun res => res.response.hash)
  let responses := db.filter (fun tx => unsolved_hashes.contains tx.hash)
  let solved_hashes := responses.map (fun res => res.hash)
  if solved_hashes.isEmpty then tx_sync_results
  else
    let solved_txs_events := all_ibc_events_from_tx_result_batch chain_id responses
    update_tx_sync_results_with_events solved_hashes tx_sync_results
      solved_txs_events

/-- `WriteAcknowledgement` (`ics04_channel::events`): the write-ack event
payload — height, acknowledged packet, and acknowledgement bytes. -/
structure WriteAcknowledgement where
  height : ICSHeight
  packet : Packet
  ack : String
deriving DecidableEq, Repr

/-- `WriteAcknowledgementEvent` (`relayer-cosmos/src/cosmos/context/chain.rs`):
newtype around `WriteAcknowledgement`. -/
structure WriteAcknowledgementEvent where
  ack : WriteAcknowledgement
deriving DecidableEq, Repr

/-- Modelled from the spec: `extract_packet_and_write_ack_from_tx`
(`chain/cosmos/types/events/channel`, not among the provided sources) —
read the packet attributes and acknowledgement attribute of a write-ack
ABCI event, failing when either is absent. -/
def extract_packet_and_write_ack_from_tx (event : AbciEvent) :
    Option (Packet × String) :=
  match event.packet, event.ack with
  | some p, some a => some (p, a)
  | _, _ => none

/-- `TryFrom<AbciEvent> for WriteAcknowledgementEvent`
(`relayer-cosmos/src/cosmos/context/chain.rs`): succeed only when the event
type string parses as the write-ack event type; extract the packet and the
acknowledgement; the carried height is the fixed `Height::new(0, 1)`. -/
def write_acknowledgement_event_try_from (event : AbciEvent) :
    Option WriteAcknowledgementEvent :=
  if event.type_str == WRITE_ACK_EVENT then
    (extract_packet_and_write_ack_from_tx event).map
      (fun pw => ⟨⟨⟨0, 1⟩, pw.1, pw.2⟩⟩)
  else none

/-- The capabilities `BaseReceivePacketRelayer` uses from its context
(`relayer-next/src/impls/packet_relayers/base_receive_packet.rs`):
a receive-packet message builder and the destination-target message
sender, both fallible; plus the conversion from a returned event to a
write-acknowledgement event.  The suspension points of the async code are
inlined, and the list of messages handed to the sender is returned
alongside the result so that submission behaviour is observable. -/
structure ReceivePacketContext (E Message Event AckEvent : Type) where
  build_receive_packet_message : ICSHeight → Packet → Except E Message
  send_message : Message → Except E (List Event)
  try_into_ack : Event → Option AckEvent

/-- `BaseReceivePacketRelayer::relay_receive_packet`
(`base_receive_packet.rs`): build the receive-packet message, send it via
the destination-target sender, and return the first returned event that
converts to a write-acknowledgement event (`find_map` over the events).
The second component is the trace of messages submitted to the sender. -/
def base_relay_receive_packet {E Message Event AckEvent : Type}
    (context : ReceivePacketContext E Message Event AckEvent)
    (source_height : ICSHeight) (packet : Packet) :
    Except E (Option AckEvent) × List Message :=
  match context.build_receive_packet_message source_height packet with
  | .error e => (.error e, [])
  | .ok message =>
    match context.send_message message with
    | .error e => (.error e, [message])
    | .ok events => (.ok (events.findSome? context.try_into_ack), [message])

/-- Modelled from the spec: the skip-received-packet wrapper around the
base receive relayer (`SkipReceivedPacketRelayer`, not among the provided
sources).  Per the spec, before issuing receive the engine checks
`query_is_packet_received` on the destination chain — keyed by the
packet's destination port, destination channel and sequence — and skips
message construction entirely, returning no acknowledgement and no error,
if the packet is already received; otherwise it delegates to the inner
relayer. -/
def skip_relay_receive_packet {E Message AckEvent : Type}
    (query_is_packet_received : String → String → Nat → Except E Bool)
    (inner_relay : ICSHeight → Packet →
      Except E (Option AckEvent) × List Message)
    (source_height : ICSHeight) (packet : Packet) :
    Except E (Option AckEvent) × List Message :=
  match query_is_packet_received packet.destination_port
      packet.destination_channel packet.sequence with
  | .error e => (.error e, [])
  | .ok true => (.ok none, [])
  | .ok false => inner_relay source_height packet

/-- `RelayContext` (`relayer-framework/src/traits`): one source chain, one
destination chain, and the two paired client identifiers, modelled with
their associated types as type parameters. -/
structure RelayContext (SrcChain DstChain SrcClientId DstClientId : Type)
    where
  source_chain : SrcChain
  destination_chain : DstChain
  source_client_id : SrcClientId
  destination_client_id : DstClientId

namespace SourceTarget

/-- `ChainTarget for SourceTarget`: the target chain is the source chain. -/
def target_chain {A B C D : Type} (context : RelayContext A B C D) : A :=
  context.source_chain

/-- `ChainTarget for SourceTarget`: the counterparty chain is the
destination chain. -/
def counterparty_chain {A B C D : Type} (context : RelayContext A B C D) :
    B :=
  context.destination_chain

/-- `ChainTarget for SourceTarget`: the target client id is the source
client id. -/
def target_client_id {A B C D : Type} (context : RelayContext A B C D) :
    C :=
  context.source_client_id

/-- `ChainTarget for SourceTarget`: the counterparty client id is the
destination client id. -/
def counterparty_client_id {A B C D : Type}
    (context : RelayContext A B C D) : D :=
  context.destination_client_id

end SourceTarget

namespace DestinationTarget

/-- `ChainTarget for DestinationTarget`: the target chain is the
destination chain. -/
def target_chain {A B C D : Type} (context : RelayContext A B C D) : B :=
  context.destination_chain

/-- `ChainTarget for DestinationTarget`: the counterparty chain is the
source chain. -/
def counterparty_chain {A B C D : Type} (context : RelayContext A B C D) :
    A :=
  context.source_chain

/-- `ChainTarget for DestinationTarget`: the target client id is the
destination client id. -/
def target_client_id {A B C D : Type} (context : RelayContext A B C D) :
    D :=
  context.destination_client_id

/-- `ChainTarget for DestinationTarget`: the counterparty client id is the
source client id. -/
def counterparty_client_id {A B C D : Type}
    (context : RelayContext A B C D) : C :=
  context.source_client_id

end DestinationTarget

/-- A telemetry metric update (`Telemetry::update_metric`): metric name,
labels, and the added value. -/
structure MetricUpdate where
  metric : String
  labels : List (String × String)
  value : Nat
deriving DecidableEq, Repr

/-- `ConsensusStateTelemetryQuerier::query_consensus_state`
(`full/telemetry/impls/consensus_state.rs`): emit one labeled counter
increment on the telemetry state, then delegate to the wrapped querier,
propagating its error unchanged and returning its consensus state
unchanged.  The telemetry sink is modelled as a state of type `T` updated
by `update_metric`. -/
def query_consensus_state_with_telemetry {T E ClientId Height State : Type}
    (telemetry : T) (update_metric : T → MetricUpdate → T)
    (in_querier : ClientId → Height → Except E State)
    (client_id : ClientId) (height : Height) : Except E State × T :=
  let label := ("query_type", "consensus_state")
  let telemetry2 := update_metric telemetry ⟨"query", [label], 1⟩
  match in_querier client_id height with
  | .error e => (.error e, telemetry2)
  | .ok status => (.ok status, telemetry2)

/-- The relay-level error of the batching layer: either a chain error
converted from the backend, or the batching-invariant violation
`MismatchIbcEventsCountError` carrying the expected and actual event-group
counts (`AfoError` requires `From<MismatchIbcEventsCountError>`). -/
inductive BatchError (E : Type) where
  | chain (e : E)
  | mismatchIbcEventsCount (expected actual : Nat)
deriving DecidableEq, Repr

/-- Positional split of the event groups returned for one shared
transaction: slot `i` receives as many consecutive groups as it
contributed messages, in concatenation order. -/
def split_event_groups {M Ev : Type} :
    List (List M) → List (List Ev) → List (List (List Ev))
  | [], _ => []
  | slot :: rest, groups =>
    groups.take slot.length :: split_event_groups rest (groups.drop slot.length)

/-- Modelled from the spec: the batch-flush step of the batching layer
(the batch worker, not among the provided sources; only the
`BatchContext` channel interface is).  Per the spec, a flush concatenates
the queued slots' messages in arrival order, hands the concatenation to
the transaction pipeline as one transaction, checks that the number of
returned event groups equals the number of messages sent — any mismatch
is the fatal `MismatchIbcEventsCountError`, never a truncated split — and
splits the groups back out positionally, one portion per slot. -/
def batch_flush {M Ev E : Type}
    (send_messages : List M → Except E (List (List Ev)))
    (slots : List (List M)) :
    Except (BatchError E) (List (List (List Ev))) :=
  match send_messages slots.flatten with
  | .error e => .error (.chain e)
  | .ok event_groups =>
    if event_groups.length = slots.flatten.length then
      .ok (split_event_groups slots event_groups)
    else
      .error (.mismatchIbcEventsCount slots.flatten.length
          event_groups.length)

/-- `RetryOutcome`: the tri-state result of one attempt of a fallible
relay operation. -/
inductive RetryOutcome (V E : Type) where
  | success (value : V)
  | retryableFailure (error : E)
  | fatalFailure (error : E)
deriving DecidableEq, Repr

/-- The error produced by the retry policy: `MaxRetryExceeded` wrapping
the last underlying failure, or an immediately propagated fatal error. -/
inductive RetryError (E : Type) where
  | maxRetryExceeded (last : E)
  | fatal (error : E)
deriving DecidableEq, Repr

/-- Modelled from the spec: the loop of the retry policy
(`impls/packet_relayers/retry.rs`, not among the provided sources; only
the `MaxRetryExceeded` / `RetryableError` declarations are).  The
operation is modelled as a function of the zero-based attempt index.
`remaining` is the number of further attempts allowed after the current
one; the second component of the result counts the attempts executed.
On success return the value; on a fatal failure abort immediately; on a
retryable failure retry while attempts remain, and return
`MaxRetryExceeded` wrapping the last failure once they are exhausted. -/
def retry_loop {V E : Type} (operation : Nat → RetryOutcome V E) :
    Nat → Nat → Except (RetryError E) V × Nat
  | remaining, attempt =>
    match operation attempt with
    | .success v => (.ok v, attempt + 1)
    | .fatalFailure e => (.error (.fatal e), attempt + 1)
    | .retryableFailure e =>
      match remaining with
      | 0 => (.error (.maxRetryExceeded e), attempt + 1)
      | r + 1 => retry_loop operation r (attempt + 1)

/-- Modelled from the spec: run an operation under the retry policy with
maximum attempt count `max_attempts`, returning the result and the number
of attempts executed. -/
def run_with_retry {V E : Type} (operation : Nat → RetryOutcome V E)
    (max_attempts : Nat) : Except (RetryError E) V × Nat :=
  retry_loop operation (max_attempts - 1) 0

/-- A sample packet used to instantiate witnesses on concrete inputs. -/
def samplePacket : Packet :=
  ⟨2, "transfer", "channel-0", "transfer", "channel-1", "payload", ⟨0, 100⟩, 0⟩

/-- C8: For every relay context r, the SourceTarget selector and the
DestinationTarget selector are exact duals: the source target's target
chain is the destination target's counterparty chain and is the source
chain, the source target's counterparty chain is the destination target's
target chain and is the destination chain, and the same swap holds for the
target and counterparty client ids. -/
theorem source_and_destination_targets_are_exact_duals
    {A B C D : Type} (context : RelayContext A B C D) :
    SourceTarget.target_chain context
        = DestinationTarget.counterparty_chain context
      ∧ SourceTarget.target_chain context = context.source_chain
      ∧ SourceTarget.counterparty_chain context
        = DestinationTarget.target_chain context
      ∧ SourceTarget.counterparty_chain context = context.destination_chain
      ∧ SourceTarget.target_client_id context
        = DestinationTarget.counterparty_client_id context
      ∧ SourceTarget.target_client_id context = context.source_client_id
      ∧ SourceTarget.counterparty_client_id context
        = DestinationTarget.target_client_id context
      ∧ SourceTarget.counterparty_client_id context
        = context.destination_client_id :=
  ⟨rfl, rfl, rfl, rfl, rfl, rfl, rfl, rfl⟩

/-- C9: For every chain, client id, and height, the telemetry-wrapping
consensus-state querier returns exactly the same result — the same
consensus state on success and the same error on failure — as the inner
querier it wraps, for every telemetry sink and every metric-update
function: emitting the telemetry counter never changes the query
outcome. -/
theorem telemetry_consensus_state_querier_preserves_result
    {T E ClientId Height State : Type} (telemetry : T)
    (update_metric : T → MetricUpdate → T)
    (in_querier : ClientId → Height → Except E State)
    (client_id : ClientId) (height : Height) :
    (query_consensus_state_with_telemetry telemetry update_metric in_querier
        client_id height).1 = in_querier client_id height := by
  unfold query_consensus_state_with_telemetry
  cases in_querier client_id height <;> rfl

/-- C1: For every packet already marked received on the destination chain
(the received-packet query answers `true` for the packet's destination
port, destination channel and sequence), `relay_receive_packet` with the
skip guard does not construct and does not submit any message — for every
inner relayer, the result is the same and the submitted-message trace is
empty — and returns no acknowledgement without error. -/
theorem relay_receive_packet_skips_already_received
    {E Message AckEvent : Type}
    (query_is_packet_received : String → String → Nat → Except E Bool)
    (inner_relay : ICSHeight → Packet →
      Except E (Option AckEvent) × List Message)
    (source_height : ICSHeight) (packet : Packet)
    (hreceived : query_is_packet_received packet.destination_port
        packet.destination_channel packet.sequence = .ok true) :
    skip_relay_receive_packet query_is_packet_received inner_relay
        source_height packet = (.ok none, []) := by
  unfold skip_relay_receive_packet
  rw [hreceived]

/-- Witness for C1 at a concrete context: the query reports the packet as
received and the skip relayer returns no acknowledgement and submits
nothing, even though the inner relayer would have submitted a message. -/
theorem relay_receive_packet_skips_already_received_witness :
    skip_relay_receive_packet
        (fun _ _ _ => (.ok true : Except Unit Bool))
        (fun _ _ =>
          ((.ok (some ()), [()]) : Except Unit (Option Unit) × List Unit))
        ⟨0, 3⟩ samplePacket
      = (.ok none, []) :=
  relay_receive_packet_skips_already_received _ _ _ _ rfl

/-- Under an operation that fails retryably on every attempt, the retry
loop runs through its whole budget and wraps the last failure. -/
theorem retry_loop_always_retryable {V E : Type}
    (operation : Nat → RetryOutcome V E) (e : Nat → E)
    (hop : ∀ i, operation i = .retryableFailure (e i)) :
    ∀ remaining attempt,
      retry_loop operation remaining attempt
        = (.error (.maxRetryExceeded (e (attempt + remaining))),
            attempt + remaining + 1) := by
  intro remaining
  induction remaining with
  | zero =>
    intro attempt
    unfold retry_loop
    rw [hop attempt]
    rfl
  | succ r ih =>
    intro attempt
    unfold retry_loop
    rw [hop attempt]
    show retry_loop operation r (attempt + 1) = _
    rw [ih (attempt + 1)]
    have h : attempt + 1 + r = attempt + (r + 1) := by omega
    rw [h]

/-- C3: For every retry policy with maximum attempt count K ≥ 1: an
operation that reports a retryable failure on every attempt is executed
exactly K times and the policy then returns a `MaxRetryExceeded` error
wrapping the last failure; an operation that reports a fatal failure on
its first attempt is executed exactly once and its error is propagated
immediately. -/
theorem retry_policy_attempt_exhaustion_and_fatal_abort
    {V E : Type} (operation : Nat → RetryOutcome V E) (max_attempts : Nat)
    (hK : 1 ≤ max_attempts) :
    (∀ e : Nat → E, (∀ i, operation i = .retryableFailure (e i)) →
      run_with_retry operation max_attempts
        = (.error (.maxRetryExceeded (e (max_attempts - 1))), max_attempts))
    ∧ (∀ e0 : E, operation 0 = .fatalFailure e0 →
      run_with_retry operation max_attempts
        = (.error (.fatal e0), 1)) := by
  constructor
  · intro e hop
    unfold run_with_retry
    rw [retry_loop_always_retryable operation e hop]
    have h1 : 0 + (max_attempts - 1) = max_attempts - 1 := by omega
    have h2 : max_attempts - 1 + 1 = max_attempts := by omega
    rw [h1, h2]
  · intro e0 hop
    unfold run_with_retry retry_loop
    rw [hop]

/-- Witness for C3 with K = 3: the always-retryable operation is attempted
exactly three times and yields `MaxRetryExceeded` wrapping the failure of
attempt 3; the immediately-fatal operation is attempted exactly once. -/
theorem retry_policy_attempt_exhaustion_and_fatal_abort_witness :
    run_with_retry (V := Unit) (fun i => .retryableFailure i) 3
        = (.error (.maxRetryExceeded 2), 3)
      ∧ run_with_retry (V := Unit) (E := Nat) (fun _ => .fatalFailure 7) 3
        = (.error (.fatal 7), 1) :=
  ⟨(retry_policy_attempt_exhaustion_and_fatal_abort
      (fun i => .retryableFailure i) 3 (by decide)).1 (fun i => i)
      (fun _ => rfl),
    (retry_policy_attempt_exhaustion_and_fatal_abort
      (fun _ => .fatalFailure 7) 3 (by decide)).2 7 rfl⟩

/-- The number of messages contributed by the slots before slot `i`
(the start offset of slot `i`'s event groups in concatenation order). -/
def slots_offset {M : Type} : List (List M) → Nat → Nat
  | [], _ => 0
  | _ :: _, 0 => 0
  | slot :: rest, i + 1 => slot.length + slots_offset rest i

/-- The positional split always yields one portion per slot. -/
theorem split_event_groups_length {M Ev : Type} :
    ∀ (slots : List (List M)) (groups : List (List Ev)),
      (split_event_groups slots groups).length = slots.length := by
  intro slots
  induction slots with
  | nil => intro groups; rfl
  | cons slot rest ih =>
    intro groups
    unfold split_event_groups
    simp [ih]

/-- When the group count equals the message count, the positional split
loses and duplicates nothing: the portions flatten back to the groups. -/
theorem split_event_groups_flatten {M Ev : Type} :
    ∀ (slots : List (List M)) (groups : List (List Ev)),
      groups.length = slots.flatten.length →
      (split_event_groups slots groups).flatten = groups := by
  intro slots
  induction slots with
  | nil =>
    intro groups h
    simp at h
    subst h
    rfl
  | cons slot rest ih =>
    intro groups h
    simp at h
    unfold split_event_groups
    rw [List.flatten_cons, ih (groups.drop slot.length) (by simp; omega),
      List.take_append_drop]

/-- Portion `i` of the positional split is exactly the run of groups that
starts at slot `i`'s offset and has slot `i`'s message count. -/
theorem split_event_groups_get {M Ev : Type} :
    ∀ (slots : List (List M)) (groups : List (List Ev)) (i : Nat)
      (hi : i < slots.length)
      (hi2 : i < (split_event_groups slots groups).length),
      (split_event_groups slots groups).get ⟨i, hi2⟩
        = (groups.drop (slots_offset slots i)).take
            ((slots.get ⟨i, hi⟩).length) := by
  intro slots
  induction slots with
  | nil => intro groups i hi; exact absurd hi (by simp)
  | cons slot rest ih =>
    intro groups i hi hi2
    match i with
    | 0 => rfl
    | j + 1 =>
      have hj : j < rest.length := by simpa using hi
      have hj2 : j < (split_event_groups rest (groups.drop slot.length)).length := by
        rw [split_event_groups_length]; exact hj
      show (split_event_groups rest (groups.drop slot.length)).get ⟨j, hj2⟩ = _
      rw [ih (groups.drop slot.length) j hj hj2]
      rw [List.drop_drop]
      rfl

/-- C2: For every batch of N ≥ 1 message sets flushed together as one
transaction: when the pipeline returns one event group per message, the
flush succeeds with exactly N portions, portion i being delivered to the
slot that contributed message set i — it is the contiguous run of groups
at slot i's offset, of slot i's length, and the portions flatten back to
the full group list; any count mismatch yields the fatal
`MismatchIbcEventsCountError` carrying the expected and actual counts,
never a silently truncated split. -/
theorem batch_flush_positional_split_or_mismatch
    {M Ev E : Type} (send_messages : List M → Except E (List (List Ev)))
    (slots : List (List M)) (event_groups : List (List Ev))
    (hN : slots ≠ [])
    (hsend : send_messages slots.flatten = .ok event_groups) :
    (event_groups.length = slots.flatten.length →
      batch_flush send_messages slots
          = .ok (split_event_groups slots event_groups)
        ∧ (split_event_groups slots event_groups).length = slots.length
        ∧ (split_event_groups slots event_groups).flatten = event_groups
        ∧ ∀ (i : Nat) (hi : i < slots.length)
            (hi2 : i < (split_event_groups slots event_groups).length),
            (split_event_groups slots event_groups).get ⟨i, hi2⟩
              = (event_groups.drop (slots_offset slots i)).take
                  ((slots.get ⟨i, hi⟩).length))
    ∧ (event_groups.length ≠ slots.flatten.length →
      batch_flush send_messages slots
        = .error (.mismatchIbcEventsCount slots.flatten.length
            event_groups.length)) := by
  constructor
  · intro hlen
    refine ⟨?_, split_event_groups_length slots event_groups,
      split_event_groups_flatten slots event_groups hlen,
      fun i hi hi2 => split_event_groups_get slots event_groups i hi hi2⟩
    unfold batch_flush
    rw [hsend]
    simp [hlen]
  · intro hlen
    unfold batch_flush
    rw [hsend]
    simp only [List.length_flatten] at hlen
    simp [hlen]

/-- Witness for C2 with N = 2 slots of 1 and 2 messages: the flush returns
the two portions positionally, and a pipeline answering a wrong group
count yields the mismatch error. -/
theorem batch_flush_positional_split_or_mismatch_witness :
    batch_flush
        (fun ms => (.ok (ms.map (fun m => [m * 10]))
          : Except Unit (List (List Nat))))
        ([[1], [2, 3]] : List (List Nat))
      = .ok [[[10]], [[20], [30]]]
    ∧ batch_flush
        (fun _ => (.ok [[99]] : Except Unit (List (List Nat))))
        ([[1], [2, 3]] : List (List Nat))
      = .error (.mismatchIbcEventsCount 3 1) :=
  ⟨((batch_flush_positional_split_or_mismatch
      (fun ms => .ok (ms.map (fun m => [m * 10]))) [[1], [2, 3]]
      [[10], [20], [30]] (by decide) (by rfl)).1 (by decide)).1,
    (batch_flush_positional_split_or_mismatch
      (fun _ => .ok [[99]]) [[1], [2, 3]] [[99]] (by decide) (by rfl)).2
      (by decide)⟩

/-- C4: For every packet-event request (a request for send-packet or
write-acknowledgement events) and every transaction-result event carrying
a packet (and an acknowledgement attribute where relevant), the
event-correlation filter returns the event if and only if the event type
equals the requested event id and the event's packet has source port,
source channel, destination port, and destination channel equal to the
request's and its sequence is a member of the requested sequence set; any
returned event carries the given height and exactly the event's packet. -/
theorem filter_matching_event_characterization
    (event : AbciEvent) (height : ICSHeight)
    (request : QueryPacketEventDataRequest) (p : Packet)
    (hreq : request.event_id = .sendPacket ∨ request.event_id = .writeAck)
    (hpkt : event.packet = some p)
    (hack : event.ack.isSome = true) :
    ((filter_matching_event event height request).isSome = true
        ↔ event.type_str = request.event_id.asStr
          ∧ matches_packet request p = true)
    ∧ ∀ out, filter_matching_event event height request = some out →
        out.height = height ∧ out.event.packet = some p := by
  obtain ⟨a, ha⟩ := Option.isSome_iff_exists.mp hack
  rcases hreq with h | h
  · by_cases ht : event.type_str = request.event_id.asStr
    · have hfil : filter_matching_event event height request
          = if matches_packet request p then some ⟨.sendPacket p, height⟩
            else none := by
        simp [filter_matching_event, from_tx_response_event, h,
          WithBlockDataType.asStr, ht, hpkt]
      constructor
      · rw [hfil]
        by_cases hm : matches_packet request p <;> simp [hm, ht]
      · rw [hfil]
        intro out hout
        by_cases hm : matches_packet request p <;> simp [hm] at hout
        rw [← hout]
        exact ⟨rfl, rfl⟩
    · have hfil : filter_matching_event event height request = none := by
        simp [filter_matching_event, ht]
      constructor
      · simp [hfil, ht]
      · simp [hfil]
  · by_cases ht : event.type_str = request.event_id.asStr
    · have hfil : filter_matching_event event height request
          = if matches_packet request p then
              some ⟨.writeAcknowledgement p a, height⟩
            else none := by
        simp [filter_matching_event, from_tx_response_event, h,
          WithBlockDataType.asStr, ht, hpkt, ha, WRITE_ACK_EVENT,
          SEND_PACKET_EVENT]
      constructor
      · rw [hfil]
        by_cases hm : matches_packet request p <;> simp [hm, ht]
      · rw [hfil]
        intro out hout
        by_cases hm : matches_packet request p <;> simp [hm] at hout
        rw [← hout]
        exact ⟨rfl, rfl⟩
    · have hfil : filter_matching_event event height request = none := by
        simp [filter_matching_event, ht]
      constructor
      · simp [hfil, ht]
      · simp [hfil]

/-- Concrete packet for the C4 witness scenario, one per sequence. -/
def c4Packet (n : Nat) : Packet :=
  ⟨n, "transfer", "channel-0", "transfer", "channel-1", "", ⟨0, 0⟩, 0⟩

/-- Concrete send-packet ABCI event for the C4 witness scenario. -/
def c4Event (n : Nat) : AbciEvent :=
  ⟨"send_packet", some (c4Packet n), some "ACK", none, none⟩

/-- Concrete request for the C4 witness scenario: sequences 2 and 4. -/
def c4Request : QueryPacketEventDataRequest :=
  ⟨.sendPacket, "channel-0", "transfer", "channel-1", "transfer", [2, 4],
    .latest⟩

/-- Witness for C4: on the concrete request for sequences 2 and 4, the
characterization holds at the sequence-2 event, and correlating a
transaction with events for sequences 1, 2 and 3 returns exactly the
event for sequence 2. -/
theorem filter_matching_event_characterization_witness :
    (((filter_matching_event (c4Event 2) ⟨0, 10⟩ c4Request).isSome = true
        ↔ (c4Event 2).type_str = c4Request.event_id.asStr
          ∧ matches_packet c4Request (c4Packet 2) = true)
      ∧ ∀ out, filter_matching_event (c4Event 2) ⟨0, 10⟩ c4Request = some out →
          out.height = ⟨0, 10⟩ ∧ out.event.packet = some (c4Packet 2))
    ∧ ([c4Event 1, c4Event 2, c4Event 3].filterMap
          (fun e => filter_matching_event e ⟨0, 10⟩ c4Request))
        = [⟨.sendPacket (c4Packet 2), ⟨0, 10⟩⟩] :=
  ⟨filter_matching_event_characterization (c4Event 2) ⟨0, 10⟩ c4Request
      (c4Packet 2) (Or.inl rfl) rfl rfl,
    by rfl⟩

/-- C5: For every submitted transaction whose on-chain result code is
non-zero, the tx-sync update pipeline surfaces a synthetic ChainError
event carrying the on-chain log to every message slot of that transaction
— the same error event replicated once per message, leaving the slot
count unchanged — and marks the transaction as having received its
response, instead of returning a pipeline error. -/
theorem nonzero_code_tx_replicates_chain_error_to_every_slot
    (chain_id : ChainId) (db : List ResultTx) (result : TxSyncResult)
    (tx : ResultTx)
    (hpending : result.status = .pending)
    (hdb : db.filter (fun t => t.hash == result.response.hash) = [tx])
    (hcode : tx.tx_result.code ≠ 0) :
    query_hashes_and_update_tx_sync_events db chain_id [result]
      = [{ result with
            events := List.replicate result.events.length
              ⟨.chainError (deliver_tx_error_msg chain_id tx),
                ⟨chain_id.version, tx.height⟩⟩
            status := .receivedResponse }] := by
  have htxhash : tx.hash = result.response.hash := by
    have hmem : tx ∈ db.filter (fun t => t.hash == result.response.hash) := by
      rw [hdb]; exact List.mem_singleton.mpr rfl
    have := (List.mem_filter.mp hmem).2
    simpa using this
  have hcont : ∀ (x h : String), (([h].contains x) = (x == h)) := by
    intro x h
    cases hb : x == h <;> simp [List.contains, List.elem, hb]
  have hfilter :
      db.filter (fun t => [result.response.hash].contains t.hash) = [tx] := by
    rw [← hdb]
    apply List.filter_congr
    intro t _
    rw [hcont]
  have hpf : List.filter (fun r => r.status == TxStatus.pending) [result]
      = [result] := by
    simp [hpending]
  have hbatch : all_ibc_events_from_tx_result_batch chain_id [tx]
      = [[⟨.chainError (deliver_tx_error_msg chain_id tx),
            ⟨chain_id.version, tx.height⟩⟩]] := by
    simp [all_ibc_events_from_tx_result_batch, hcode]
  unfold query_hashes_and_update_tx_sync_events
  rw [hpf]
  simp only [List.map_cons, List.map_nil]
  rw [hfilter]
  simp only [List.map_cons, List.map_nil, List.isEmpty_cons,
    Bool.false_eq_true, if_false]
  rw [hbatch]
  unfold update_tx_sync_results_with_events
  rw [show ([tx.hash].contains result.response.hash) = true by
    rw [hcont]; simp [htxhash]]
  simp only [if_true]
  unfold update_tx_sync_results_with_events
  unfold update_solved_tx_sync_result
  simp [List.find?]

/-- Concrete transaction result for the C5 witness: deliver-tx code 5. -/
def c5Tx : ResultTx := ⟨"AB12", 7, ⟨5, "out of gas", []⟩⟩

/-- Concrete pending sync result for the C5 witness: two message slots. -/
def c5Result : TxSyncResult :=
  ⟨⟨"AB12", 0, "ok"⟩,
    [⟨.chainError "placeholder", ⟨0, 0⟩⟩, ⟨.chainError "placeholder", ⟨0, 0⟩⟩],
    .pending⟩

/-- Witness for C5: the transaction with code 5 maps both of its message
slots to the same synthetic chain-error event at the transaction's
height, with the slot count unchanged. -/
theorem nonzero_code_tx_replicates_chain_error_witness :
    query_hashes_and_update_tx_sync_events [c5Tx] ⟨"chain-a", 0⟩ [c5Result]
      = [{ c5Result with
            events := List.replicate c5Result.events.length
              ⟨.chainError (deliver_tx_error_msg ⟨"chain-a", 0⟩ c5Tx),
                ⟨(⟨"chain-a", 0⟩ : ChainId).version, c5Tx.height⟩⟩
            status := .receivedResponse }] :=
  nonzero_code_tx_replicates_chain_error_to_every_slot ⟨"chain-a", 0⟩
    [c5Tx] c5Result c5Tx rfl (by rfl) (by decide)

/-- If `findSome?` produces a value, some list element produced it. -/
theorem findSome_mem {α β : Type} (f : α → Option β) :
    ∀ (l : List α) (b : β), l.findSome? f = some b →
      ∃ a, a ∈ l ∧ f a = some b := by
  intro l
  induction l with
  | nil => intro b h; simp [List.findSome?] at h
  | cons x xs ih =>
    intro b h
    cases hf : f x with
    | some y =>
      rw [List.findSome?_cons, hf] at h
      exact ⟨x, List.mem_cons_self x xs, hf.trans h⟩
    | none =>
      rw [List.findSome?_cons, hf] at h
      obtain ⟨a, hmem, hfa⟩ := ih b h
      exact ⟨a, List.mem_cons_of_mem x hmem, hfa⟩

/-- A successful conversion to a write-acknowledgement event only happens
on an event whose type string is the write-ack event type. -/
theorem write_ack_try_from_type {event : AbciEvent}
    {ackev : WriteAcknowledgementEvent}
    (h : write_acknowledgement_event_try_from event = some ackev) :
    event.type_str = WRITE_ACK_EVENT := by
  unfold write_acknowledgement_event_try_from at h
  by_cases ht : event.type_str == WRITE_ACK_EVENT
  · exact beq_iff_eq.mp ht
  · rw [if_neg ht] at h
    exact absurd h (by simp)

/-- C7 (amended): for every source height and packet, when message
building and sending succeed, `relay_receive_packet` submits exactly the
built message toward the destination target and returns the first
returned event convertible to a write-acknowledgement event — with no
check that its packet equals the relayed packet; any returned
acknowledgement comes from the returned events and is a write-ack-typed
event, and when no returned event converts the result is no
acknowledgement rather than an error. -/
theorem relay_receive_packet_returns_first_convertible_ack
    {E Message : Type}
    (context : ReceivePacketContext E Message AbciEvent
      WriteAcknowledgementEvent)
    (source_height : ICSHeight) (packet : Packet) (message : Message)
    (events : List AbciEvent)
    (htry : context.try_into_ack = write_acknowledgement_event_try_from)
    (hbuild : context.build_receive_packet_message source_height packet
      = .ok message)
    (hsend : context.send_message message = .ok events) :
    base_relay_receive_packet context source_height packet
        = (.ok (events.findSome? write_acknowledgement_event_try_from),
            [message])
      ∧ (∀ ackev,
          events.findSome? write_acknowledgement_event_try_from = some ackev →
          ∃ ev, ev ∈ events
            ∧ write_acknowledgement_event_try_from ev = some ackev
            ∧ ev.type_str = WRITE_ACK_EVENT)
      ∧ (events.findSome? write_acknowledgement_event_try_from = none →
          base_relay_receive_packet context source_height packet
            = (.ok none, [message])) := by
  have hrun : base_relay_receive_packet context source_height packet
      = (.ok (events.findSome? write_acknowledgement_event_try_from),
          [message]) := by
    unfold base_relay_receive_packet
    simp only [hbuild, hsend, htry]
  refine ⟨hrun, ?_, ?_⟩
  · intro ackev hfound
    obtain ⟨ev, hmem, hconv⟩ := findSome_mem _ events ackev hfound
    exact ⟨ev, hmem, hconv, write_ack_try_from_type hconv⟩
  · intro hnone
    rw [hrun, hnone]

/-- The packet relayed in the C7 scenario. -/
def c7Packet : Packet :=
  ⟨1, "transfer", "channel-0", "transfer", "channel-1", "", ⟨0, 0⟩, 0⟩

/-- A different packet, acknowledged by the event the sender returns in
the C7 scenario. -/
def c7Other : Packet :=
  ⟨9, "transfer", "channel-7", "transfer", "channel-8", "", ⟨0, 0⟩, 0⟩

/-- The write-acknowledgement ABCI event for the other packet. -/
def c7AckEventRaw : AbciEvent :=
  ⟨"write_acknowledgement", some c7Other, some "AQ", none, none⟩

/-- The concrete receive-packet context of the C7 scenario: building
succeeds, and the submission returns a single write-ack event belonging
to the other packet. -/
def c7Context :
    ReceivePacketContext Unit Unit AbciEvent WriteAcknowledgementEvent :=
  ⟨fun _ _ => .ok (), fun _ => .ok [c7AckEventRaw],
    write_acknowledgement_event_try_from⟩

/-- Counterexample to C7 as stated: relaying `c7Packet` returns
`Ok(Some(e))` where `e` is the write-acknowledgement of a different
packet — the code performs no packet-field comparison on the found
acknowledgement. -/
theorem relay_receive_packet_accepts_foreign_ack :
    (base_relay_receive_packet c7Context ⟨0, 5⟩ c7Packet).1
        = .ok (some ⟨⟨⟨0, 1⟩, c7Other, "AQ"⟩⟩)
      ∧ c7Other ≠ c7Packet :=
  ⟨rfl, by decide⟩

/-- Witness for C7 (amended) at the concrete context: the relayer submits
the built message once and returns the first convertible
write-acknowledgement event of the submission. -/
theorem relay_receive_packet_returns_first_convertible_ack_witness :
    base_relay_receive_packet c7Context ⟨0, 5⟩ c7Packet
      = (.ok ([c7AckEventRaw].findSome?
          write_acknowledgement_event_try_from), [()]) :=
  (relay_receive_packet_returns_first_convertible_ack c7Context ⟨0, 5⟩
      c7Packet () [c7AckEventRaw] rfl rfl rfl).1

/-- Height order totality: if `a < b` fails then `b ≤ a`. -/
theorem ICSHeight.not_ltb_leb (a b : ICSHeight)
    (h : ICSHeight.ltb a b = false) : ICSHeight.leb b a = true := by
  unfold ICSHeight.ltb at h
  unfold ICSHeight.leb
  simp at h ⊢
  omega

/-- Every event produced by the event parser carries the height it was
given. -/
theorem from_tx_response_event_height {h : ICSHeight} {event : AbciEvent}
    {out : IbcEventWithHeight}
    (hp : from_tx_response_event h event = some out) : out.height = h := by
  unfold from_tx_response_event at hp
  by_cases h1 : (event.type_str == SEND_PACKET_EVENT) = true
  · rw [if_pos h1] at hp
    cases hep : event.packet with
    | none => rw [hep] at hp; simp at hp
    | some p =>
      rw [hep] at hp
      simp only [Option.map_some'] at hp
      injection hp with hh
      rw [← hh]
  · rw [if_neg h1] at hp
    by_cases h2 : (event.type_str == WRITE_ACK_EVENT) = true
    · rw [if_pos h2] at hp
      cases hep : event.packet with
      | none =>
        rw [hep] at hp
        cases hea : event.ack <;> rw [hea] at hp <;> simp at hp
      | some p =>
        cases hea : event.ack with
        | none => rw [hep, hea] at hp; simp at hp
        | some a =>
          rw [hep, hea] at hp
          injection hp with hh
          rw [← hh]
    · rw [if_neg h2] at hp
      by_cases h3 : (event.type_str == UPDATE_CLIENT_EVENT) = true
      · rw [if_pos h3] at hp
        cases hec : event.client_id with
        | none =>
          rw [hec] at hp
          cases heh : event.consensus_height <;> rw [heh] at hp <;>
            simp at hp
        | some c =>
          cases heh : event.consensus_height with
          | none => rw [hec, heh] at hp; simp at hp
          | some ch =>
            rw [hec, heh] at hp
            injection hp with hh
            rw [← hh]
      · rw [if_neg h3] at hp
        simp at hp

/-- Every event kept by the correlation filter carries the height it was
given. -/
theorem filter_matching_event_height {event : AbciEvent} {h : ICSHeight}
    {request : QueryPacketEventDataRequest} {out : IbcEventWithHeight}
    (hf : filter_matching_event event h request = some out) :
    out.height = h := by
  unfold filter_matching_event at hf
  by_cases ht : (event.type_str != request.event_id.asStr) = true
  · rw [if_pos ht] at hf; simp at hf
  · rw [if_neg ht] at hf
    cases hp : from_tx_response_event h event with
    | none => rw [hp] at hf; simp at hf
    | some ibc =>
      have hh := from_tx_response_event_height hp
      rw [hp] at hf
      obtain ⟨iev, ihgt⟩ := ibc
      cases iev with
      | sendPacket p =>
        by_cases hm : matches_packet request p = true
        · have hf2 : some (⟨IbcEvent.sendPacket p, ihgt⟩ : IbcEventWithHeight)
              = some out := by
            rw [← hf]
            show _ = if matches_packet request p = true then _ else _
            rw [if_pos hm]
          injection hf2 with hf3
          rw [← hf3]
          exact hh
        · have hf2 : (none : Option IbcEventWithHeight) = some out := by
            rw [← hf]
            show _ = if matches_packet request p = true then _ else _
            rw [if_neg hm]
          exact Option.noConfusion hf2
      | writeAcknowledgement p a =>
        by_cases hm : matches_packet request p = true
        · have hf2 : some
              (⟨IbcEvent.writeAcknowledgement p a, ihgt⟩ : IbcEventWithHeight)
              = some out := by
            rw [← hf]
            show _ = if matches_packet request p = true then _ else _
            rw [if_pos hm]
          injection hf2 with hf3
          rw [← hf3]
          exact hh
        · have hf2 : (none : Option IbcEventWithHeight) = some out := by
            rw [← hf]
            show _ = if matches_packet request p = true then _ else _
            rw [if_neg hm]
          exact Option.noConfusion hf2
      | updateClient c ch => exact Option.noConfusion hf
      | chainError m => exact Option.noConfusion hf

/-- The transaction-scan extraction with the height guard removed (used to
state that no height filtering happens under the `Latest` query height). -/
def packet_events_all_heights (chain_id : ChainId)
    (request : QueryPacketEventDataRequest) :
    List ResultTx → List IbcEventWithHeight
  | [] => []
  | response :: rest =>
    (response.tx_result.events.filterMap
        (fun ev => filter_matching_event ev ⟨chain_id.version, response.height⟩
          request))
      ++ packet_events_all_heights chain_id request rest

/-- The update-client extraction with the height guard removed (used to
state that no height filtering happens under the `Latest` query height). -/
def update_client_events_any_height (chain_id : ChainId)
    (request : QueryClientEventRequest) (response : ResultTx) :
    Option IbcEventWithHeight :=
  let height : ICSHeight := ⟨chain_id.version, response.height⟩
  ((response.tx_result.events.filter
      (fun event => event.type_str == request.event_id.asStr)).filterMap
    (fun event => from_tx_response_event height event)).filterMap
    (fun event =>
      match event.event with
      | .updateClient c h => some (c, h)
      | _ => none)
  |>.find? (fun update =>
      update.1 == request.client_id && update.2 == request.consensus_height)
  |>.map (fun update => ⟨.updateClient update.1 update.2, height⟩)

/-- C10: For every packet or client-update lookup at a specific query
height H, every event returned by the transaction-scan path, the
client-update search, and the block-event scan has height at most H
(events committed above H are excluded); under the `Latest` query height
each path applies no height filtering — it returns exactly what the same
extraction without the height guard returns. -/
theorem query_height_bounds_returned_events
    (chain_id : ChainId) (H : ICSHeight)
    (request : QueryPacketEventDataRequest)
    (creq : QueryClientEventRequest)
    (responses : List ResultTx) (response : ResultTx)
    (db : List SqlPacketBlockEvents) :
    (request.height = .specific H →
      ∀ ev ∈ packet_events_from_tx_search_response chain_id request responses,
        ICSHeight.leb ev.height H = true)
    ∧ (creq.query_height = .specific H →
      ∀ out, update_client_events_from_tx_search_response chain_id creq
          response = some out →
        ICSHeight.leb out.height H = true)
    ∧ (request.height = .specific H →
      ∀ ev ∈ block_search_response_from_packet_query db chain_id request,
        ICSHeight.leb ev.height H = true)
    ∧ (request.height = .latest →
      packet_events_from_tx_search_response chain_id request responses
        = packet_events_all_heights chain_id request responses)
    ∧ (creq.query_height = .latest →
      update_client_events_from_tx_search_response chain_id creq response
        = update_client_events_any_height chain_id creq response)
    ∧ (request.height = .latest →
      block_search_response_from_packet_query db chain_id request
        = (block_results_by_packet_fields db request).filterMap
            (fun r => ibc_packet_event_from_sql_block_query chain_id r)) := by
  refine ⟨?_, ?_, ?_, ?_, ?_, ?_⟩
  · intro hreq
    induction responses with
    | nil => intro ev hmem; simp [packet_events_from_tx_search_response] at hmem
    | cons r rest ih =>
      intro ev hmem
      rw [packet_events_from_tx_search_response, hreq] at hmem
      by_cases hg : ICSHeight.ltb H ⟨chain_id.version, r.height⟩ = true
      · rw [if_pos hg] at hmem
        exact ih ev hmem
      · rw [if_neg hg] at hmem
        rcases List.mem_append.mp hmem with hleft | hright
        · obtain ⟨raw, _, hraw⟩ := List.mem_filterMap.mp hleft
          rw [filter_matching_event_height hraw]
          exact ICSHeight.not_ltb_leb H _ (Bool.not_eq_true _ ▸ hg)
        · exact ih ev hright
  · intro hcq out hout
    rw [update_client_events_from_tx_search_response, hcq] at hout
    by_cases hg :
        ICSHeight.ltb H ⟨chain_id.version, response.height⟩ = true
    · rw [if_pos hg] at hout; simp at hout
    · rw [if_neg hg] at hout
      cases hfind : (((response.tx_result.events.filter
            (fun event => event.type_str == creq.event_id.asStr)).filterMap
          (fun event => from_tx_response_event
            ⟨chain_id.version, response.height⟩ event)).filterMap
          (fun event =>
            match event.event with
            | .updateClient c h => some (c, h)
            | _ => none)).find? (fun update =>
            update.1 == creq.client_id
              && update.2 == creq.consensus_height) with
      | none => rw [hfind] at hout; simp at hout
      | some u =>
        rw [hfind] at hout
        injection hout with hh
        rw [← hh]
        exact ICSHeight.not_ltb_leb H _ (Bool.not_eq_true _ ▸ hg)
  · intro hreq ev hmem
    unfold block_search_response_from_packet_query at hmem
    rw [hreq] at hmem
    obtain ⟨x, _, hx⟩ := List.mem_filterMap.mp hmem
    have hx2 : (if ICSHeight.leb x.height H = true then some x else none)
        = some ev := hx
    by_cases hb : ICSHeight.leb x.height H = true
    · rw [if_pos hb] at hx2
      injection hx2 with hh
      rw [← hh]
      exact hb
    · rw [if_neg hb] at hx2
      exact Option.noConfusion hx2
  · intro hreq
    induction responses with
    | nil => rfl
    | cons r rest ih =>
      rw [packet_events_from_tx_search_response, packet_events_all_heights,
        hreq]
      rw [ih]
      simp
  · intro hcq
    rw [update_client_events_from_tx_search_response,
      update_client_events_any_height, hcq]
    simp
  · intro hreq
    unfold block_search_response_from_packet_query
    rw [hreq]
    simp

/-- Chain id used by the C10 witness. -/
def c10Chain : ChainId := ⟨"chain-c10", 0⟩

/-- The C4 request queried at specific height (0, 5) for the C10
witness. -/
def c10Req : QueryPacketEventDataRequest :=
  { c4Request with height := QueryHeight.specific ⟨0, 5⟩ }

/-- A transaction committed at height 3 carrying the matching sequence-2
send event, for the C10 witness. -/
def c10Tx : ResultTx := ⟨"H1", 3, ⟨0, "", [c4Event 2]⟩⟩

/-- A client-update request at specific height (0, 5), for the C10
witness. -/
def c10CReq : QueryClientEventRequest :=
  ⟨.specific ⟨0, 5⟩, .updateClient, "client-1", ⟨0, 2⟩⟩

/-- Witness for C10: at query height (0, 5), the event the transaction
scan returns for the height-3 transaction is bounded by the query
height. -/
theorem query_height_bounds_returned_events_witness :
    ICSHeight.leb
        (IbcEventWithHeight.height ⟨.sendPacket (c4Packet 2), ⟨0, 3⟩⟩)
        ⟨0, 5⟩ = true
      ∧ packet_events_from_tx_search_response c10Chain c10Req [c10Tx]
          = [⟨.sendPacket (c4Packet 2), ⟨0, 3⟩⟩] :=
  ⟨(query_height_bounds_returned_events c10Chain ⟨0, 5⟩ c10Req c10CReq
      [c10Tx] c10Tx []).1 rfl ⟨.sendPacket (c4Packet 2), ⟨0, 3⟩⟩ (by decide),
    by decide⟩

/-- Modelled from the spec: the content a correct snapshot store
(`SnapshotStore::query_sent_packets`, an external collaborator) holds for
a committed transaction history — every packet of every send-packet event
in commit order. -/
def sent_packets_of : List ResultTx → List Packet
  | [] => []
  | r :: rest =>
    r.tx_result.events.filterMap
        (fun e => if e.type_str == SEND_PACKET_EVENT then e.packet else none)
      ++ sent_packets_of rest

/-- Unfolding equation of `sent_packets_of` on a cons cell. -/
theorem sent_packets_of_cons (r : ResultTx) (rest : List ResultTx) :
    sent_packets_of (r :: rest)
      = r.tx_result.events.filterMap
          (fun e => if e.type_str == SEND_PACKET_EVENT then e.packet
            else none)
        ++ sent_packets_of rest := rfl

/-- The snapshot-path filter distributes over appended packet lists. -/
theorem snapshots_send_append (snapshot_height : ICSHeight)
    (A B : List Packet) (request : QueryPacketEventDataRequest) :
    query_packets_from_ibc_snapshots_send snapshot_height (A ++ B) request
      = query_packets_from_ibc_snapshots_send snapshot_height A request
        ++ query_packets_from_ibc_snapshots_send snapshot_height B request := by
  unfold query_packets_from_ibc_snapshots_send
  exact List.filterMap_append A B _

/-- Under the `Latest` query height, the transaction scan processes a
transaction unconditionally. -/
theorem packet_events_latest_cons (chain_id : ChainId)
    (request : QueryPacketEventDataRequest)
    (hlat : request.height = .latest) (r : ResultTx)
    (rest : List ResultTx) :
    packet_events_from_tx_search_response chain_id request (r :: rest)
      = r.tx_result.events.filterMap
          (fun ev => filter_matching_event ev
            ⟨chain_id.version, r.height⟩ request)
        ++ packet_events_from_tx_search_response chain_id request rest := by
  rw [packet_events_from_tx_search_response, hlat]
  simp

/-- Per-transaction agreement of the snapshot filter and the live filter
for send-packet requests: on the sent packets of one event list, the
snapshot filter keeps the same packets in the same order as
`filter_matching_event`, provided every kept packet also matches the
requested destination fields. -/
theorem snapshot_live_events_agree (request : QueryPacketEventDataRequest)
    (hid : request.event_id = .sendPacket)
    (snapshot_height hr : ICSHeight) :
    ∀ events : List AbciEvent,
      (∀ p ∈ events.filterMap (fun e =>
          if e.type_str == SEND_PACKET_EVENT then e.packet else none),
        p.source_port = request.source_port_id →
        p.source_channel = request.source_channel_id →
        request.sequences.contains p.sequence = true →
        p.destination_port = request.destination_port_id
          ∧ p.destination_channel = request.destination_channel_id) →
      (query_packets_from_ibc_snapshots_send snapshot_height
          (events.filterMap (fun e =>
            if e.type_str == SEND_PACKET_EVENT then e.packet else none))
          request).map (fun e => e.event.packet)
        = (events.filterMap
            (fun ev => filter_matching_event ev hr request)).map
            (fun e => e.event.packet) := by
  intro events
  induction events with
  | nil => intro _; rfl
  | cons e es ih =>
    intro hpair
    unfold query_packets_from_ibc_snapshots_send at ih ⊢
    by_cases ht : (e.type_str == SEND_PACKET_EVENT) = true
    · have heq : e.type_str = SEND_PACKET_EVENT := by simpa using ht
      cases hep : e.packet with
      | none =>
        have he1 : (if e.type_str == SEND_PACKET_EVENT then e.packet
            else none) = none := by rw [if_pos ht, hep]
        have he2 : filter_matching_event e hr request = none := by
          simp [filter_matching_event, from_tx_response_event, hid,
            WithBlockDataType.asStr, heq, hep]
        simp only [List.filterMap_cons, he1, he2]
        exact ih (fun q hq h1 h2 h3 => hpair q
          (by simp only [List.filterMap_cons, he1]; exact hq) h1 h2 h3)
      | some p =>
        have he1 : (if e.type_str == SEND_PACKET_EVENT then e.packet
            else none) = some p := by rw [if_pos ht, hep]
        by_cases hsnap : (p.source_port == request.source_port_id
            && p.source_channel == request.source_channel_id
            && request.sequences.contains p.sequence) = true
        · have hcomp := hsnap
          rw [Bool.and_eq_true, Bool.and_eq_true] at hcomp
          obtain ⟨⟨hs1, hs2⟩, hs3⟩ := hcomp
          have hmem : p ∈ (e :: es).filterMap (fun e =>
              if e.type_str == SEND_PACKET_EVENT then e.packet else none) := by
            simp only [List.filterMap_cons, he1]
            exact List.mem_cons_self p _
          have hdst := hpair p hmem (beq_iff_eq.mp hs1) (beq_iff_eq.mp hs2) hs3
          have hm : matches_packet request p = true := by
            unfold matches_packet
            rw [hs1, hs2, hs3, hdst.1, hdst.2]
            simp
          have he2 : filter_matching_event e hr request
              = some ⟨.sendPacket p, hr⟩ := by
            simp [filter_matching_event, from_tx_response_event, hid,
              WithBlockDataType.asStr, heq, hep, hm]
          simp only [List.filterMap_cons, he1, he2, hsnap, if_true,
            List.map_cons, IbcEvent.packet]
          exact congrArg _ (ih (fun q hq h1 h2 h3 => hpair q
            (by simp only [List.filterMap_cons, he1]
                exact List.mem_cons_of_mem p hq) h1 h2 h3))
        · have hsnapf : (p.source_port == request.source_port_id
              && p.source_channel == request.source_channel_id
              && request.sequences.contains p.sequence) = false := by
            cases hx : (p.source_port == request.source_port_id
                && p.source_channel == request.source_channel_id
                && request.sequences.contains p.sequence)
            · rfl
            · exact absurd hx hsnap
          have hm : matches_packet request p = false := by
            cases hmm : matches_packet request p
            · rfl
            · exfalso
              unfold matches_packet at hmm
              rw [Bool.and_eq_true, Bool.and_eq_true, Bool.and_eq_true,
                Bool.and_eq_true] at hmm
              obtain ⟨⟨⟨⟨ha, hb⟩, hc⟩, hd⟩, hs⟩ := hmm
              exact hsnap (by rw [ha, hb, hs]; rfl)
          have he2 : filter_matching_event e hr request = none := by
            simp [filter_matching_event, from_tx_response_event, hid,
              WithBlockDataType.asStr, heq, hep, hm]
          simp only [List.filterMap_cons, he1, he2, hsnapf, if_false]
          exact ih (fun q hq h1 h2 h3 => hpair q
            (by simp only [List.filterMap_cons, he1]
                exact List.mem_cons_of_mem p hq) h1 h2 h3)
    · have hne : e.type_str ≠ SEND_PACKET_EVENT := fun hh => ht (by simp [hh])
      have he1 : (if e.type_str == SEND_PACKET_EVENT then e.packet
          else none) = none := by rw [if_neg ht]
      have he2 : filter_matching_event e hr request = none := by
        unfold filter_matching_event
        rw [if_pos]
        simp [hid, WithBlockDataType.asStr, bne_iff_ne, hne]
      simp only [List.filterMap_cons, he1, he2]
      exact ih (fun q hq h1 h2 h3 => hpair q
        (by simp only [List.filterMap_cons, he1]; exact hq) h1 h2 h3)

/-- C6 (amended): For the same committed chain history and the same
send-packet filter at the `Latest` query height, the indexed-snapshot
lookup path returns the same packets, in the same order, as the live
transaction-scan path — the events agree up to their reported heights
(the snapshot path stamps every event with the single snapshot height) —
provided every committed sent packet matching the requested source port,
source channel and sequence also carries the requested destination port
and channel (the channel-pairing assumption the snapshot filter relies on
when it ignores destination fields). -/
theorem snapshot_path_matches_live_scan_on_paired_channels
    (chain_id : ChainId) (snapshot_height : ICSHeight)
    (request : QueryPacketEventDataRequest)
    (hid : request.event_id = .sendPacket)
    (hlat : request.height = .latest) :
    ∀ responses : List ResultTx,
      (∀ p ∈ sent_packets_of responses,
        p.source_port = request.source_port_id →
        p.source_channel = request.source_channel_id →
        request.sequences.contains p.sequence = true →
        p.destination_port = request.destination_port_id
          ∧ p.destination_channel = request.destination_channel_id) →
      (query_packets_from_ibc_snapshots_send snapshot_height
          (sent_packets_of responses) request).map (fun e => e.event.packet)
        = (packet_events_from_tx_search_response chain_id request
            responses).map (fun e => e.event.packet) := by
  intro responses
  induction responses with
  | nil => intro _; rfl
  | cons r rest ih =>
    intro hpair
    rw [sent_packets_of_cons, snapshots_send_append, List.map_append,
      packet_events_latest_cons chain_id request hlat r rest, List.map_append]
    congr 1
    · exact snapshot_live_events_agree request hid snapshot_height
        ⟨chain_id.version, r.height⟩ r.tx_result.events
        (fun q hq h1 h2 h3 => hpair q
          (by rw [sent_packets_of_cons]; exact List.mem_append_left _ hq)
          h1 h2 h3)
    · exact ih (fun q hq h1 h2 h3 => hpair q
        (by rw [sent_packets_of_cons]; exact List.mem_append_right _ hq)
        h1 h2 h3)

/-- The committed packet of the C6 counterexample: its destination channel
differs from the one the request asks for. -/
def c6Packet : Packet :=
  ⟨2, "transfer", "channel-0", "transfer", "channel-9", "", ⟨0, 0⟩, 0⟩

/-- The send-packet event committing `c6Packet`. -/
def c6Event : AbciEvent := ⟨"send_packet", some c6Packet, none, none, none⟩

/-- The committed transaction of the C6 counterexample. -/
def c6Tx : ResultTx := ⟨"H6", 4, ⟨0, "", [c6Event]⟩⟩

/-- Counterexample to C6 as stated: on the same committed history (one
transaction at height 4 whose sent packet matches the request's source
port, source channel and sequence but not its destination channel), the
snapshot path returns one event while the live transaction-scan path
returns none — the two paths are not semantically equal, because the
snapshot filter ignores the destination fields that
`filter_matching_event` checks. -/
theorem snapshot_and_live_paths_disagree_on_destination_fields :
    query_packets_from_ibc_snapshots_send ⟨0, 4⟩ (sent_packets_of [c6Tx])
        c4Request
        = [⟨.sendPacket c6Packet, ⟨0, 4⟩⟩]
      ∧ packet_events_from_tx_search_response c10Chain c4Request [c6Tx] = []
      ∧ ¬([(⟨.sendPacket c6Packet, ⟨0, 4⟩⟩ : IbcEventWithHeight)]
          = ([] : List IbcEventWithHeight)) :=
  ⟨by decide, by decide, by decide⟩

/-- Witness for C6 (amended): on a history whose sent packet carries the
request's destination fields, both paths return the same packets. -/
theorem snapshot_path_matches_live_scan_witness :
    (query_packets_from_ibc_snapshots_send ⟨0, 9⟩
        (sent_packets_of [c10Tx]) c4Request).map (fun e => e.event.packet)
      = (packet_events_from_tx_search_response c10Chain c4Request
          [c10Tx]).map (fun e => e.event.packet) :=
  snapshot_path_matches_live_scan_on_paired_channels c10Chain ⟨0, 9⟩
    c4Request rfl rfl [c10Tx]
    (fun p hp _ _ _ => by
      have hlist : sent_packets_of [c10Tx] = [c4Packet 2] := by decide
      rw [hlist] at hp
      rw [List.mem_singleton.mp hp]
      exact ⟨rfl, rfl⟩)
